import Mathlib

/-!
Shallow embedding of the path-mapping, classification, discovery,
snapshot-selection and error-classification core of the
restic-backup-service repository.

Rust `&str` / `String` values are modelled as `List Char`; `chrono`
timestamps as `Int` (Unix seconds, as produced by `DateTime::timestamp`);
fallible operations as `Except`.  Collaborator calls (the `aws` lister and
the `restic` engine) are modelled as explicit oracles passed to the scanning
functions, so that the control flow of the callers can be analysed over all
possible collaborator behaviours.
-/

/-- The characters of a string literal; shorthand used to build concrete
`List Char` values. -/
def str (s : String) : List Char := s.data

/-- Errors of `BackupServiceError` (src/errors.rs and src/utils.rs): the
variants relevant to classification and control flow.  The remaining
variants of the Rust enum are transparent wrappers around foreign
library errors (io/json/chrono/dialoguer/...) that never arise in the
pure logic modelled here. -/
inductive BackupServiceError where
  | authenticationFailed
  | networkError
  | repositoryNotFound (context : List Char)
  | commandFailed (raw : List Char)
  | commandNotFound (msg : List Char)
  | configurationError (msg : List Char)
  deriving DecidableEq

/-- Classifier `BackupRepo::category` (src/repository.rs lines 24-39): classify the
string form of a native path as `user_home`, `docker_volume` or `system`. -/
def category (p : List Char) : List Char :=
  if (str "/home/").isPrefixOf p ∧ p ≠ str "/home/" then
    str "user_home"
  else if (str "/mnt/docker-data/volumes/").isPrefixOf p ∧
      p ≠ str "/mnt/docker-data/volumes/" then
    str "docker_volume"
  else
    str "system"

/-- Encoder `PathMapper::path_to_repo_subpath` (src/shared/paths.rs lines 76-109):
encode a native path into its repository key.  Rust's
`strip_prefix` is the guarded `isPrefixOf`/`drop` pair, `split('/')` is
`List.splitOn '/'`, `join("_")` is `List.intercalate (str "_")`,
`replace('/', "_")` is a character map, and `trim_start_matches('/')` is
`dropWhile`. -/
def path_to_repo_subpath (p : List Char) : List Char :=
  if (str "/home/").isPrefixOf p then
    let stripped := p.drop (str "/home/").length
    match stripped.splitOn '/' with
    | [] => str "user_home"
    | username :: rest =>
      if rest.isEmpty then
        str "user_home/" ++ username
      else
        str "user_home/" ++ username ++ str "/" ++ List.intercalate (str "_") rest
  else if (str "/mnt/docker-data/volumes/").isPrefixOf p then
    let volume_path := p.drop (str "/mnt/docker-data/volumes/").length
    if volume_path.isEmpty then
      str "docker_volume"
    else
      str "docker_volume/" ++ volume_path.map (fun c => if c = '/' then '_' else c)
  else
    let system_path := p.dropWhile (fun c => c = '/')
    if system_path.isEmpty then
      str "system"
    else
      str "system/" ++ system_path.map (fun c => if c = '/' then '_' else c)

/-- Decoder `PathMapper::s3_to_native_path` (src/shared/paths.rs lines 66-73):
decode an object-store directory segment back into a native-path
fragment: if the segment contains more than one underscore, every
underscore becomes `/`, otherwise the segment is returned unchanged. -/
def s3_to_native_path (s : List Char) : List Char :=
  if s.count '_' > 1 then s.map (fun c => if c = '_' then '/' else c) else s

/-- The first `/`-separated segment of a repository key, as computed by
`repo_subpath.split('/').next()` at its call sites (e.g.
src/list.rs line 561 of paths tests, src/shared/paths.rs test helpers). -/
def firstSegment (s : List Char) : List Char := s.takeWhile (fun c => c ≠ '/')

/-- Predicate `RepositoryScanner::is_restic_internal_dir` (src/helpers.rs lines 80-85,
also src/utils.rs lines 249-251): the fixed reserved set of restic
internal directory names. -/
def is_restic_internal_dir (d : List Char) : Bool :=
  d == str "data" || d == str "index" || d == str "keys" ||
    d == str "snapshots" || d == str "locks"

/-- Character-wise lowercasing, modelling `str::to_lowercase` on the ASCII
diagnostic texts matched by the error classifier. -/
def toLowerStr (s : List Char) : List Char := s.map Char.toLower

/-- Rust `str::contains(substring)`: substring containment. -/
def containsSub (hay needle : List Char) : Bool := decide (needle <:+: hay)

/-- Classifier `BackupServiceError::from_stderr` (src/errors.rs lines 57-73): classify
a collaborator's diagnostic text by case-insensitive substring matching,
in priority order authentication, network, repository-not-found,
otherwise `commandFailed` carrying the raw (un-lowercased) text. -/
def from_stderr (stderr context : List Char) : BackupServiceError :=
  let stderr_lower := toLowerStr stderr
  if containsSub stderr_lower (str "access denied") ||
     containsSub stderr_lower (str "invalid credentials") ||
     containsSub stderr_lower (str "authorization") ||
     containsSub stderr_lower (str "forbidden") ||
     containsSub stderr_lower (str "access key") ||
     containsSub stderr_lower (str "secret key") then
    .authenticationFailed
  else if containsSub stderr_lower (str "network") ||
      containsSub stderr_lower (str "connection") ||
      containsSub stderr_lower (str "timeout") ||
      containsSub stderr_lower (str "unreachable") ||
      containsSub stderr_lower (str "dns") then
    .networkError
  else if containsSub stderr_lower (str "repository") &&
      containsSub stderr_lower (str "not found") then
    .repositoryNotFound context
  else
    .commandFailed stderr

/-- Snapshot metadata held by the restore UI (`SnapshotItem`,
src/shared/ui.rs lines 27-31); the timestamp is in Unix seconds. -/
structure SnapshotItem where
  id : List Char
  time : Int
  deriving DecidableEq

/-- One selectable repository of the restore UI
(`RepositorySelectionItem`, src/shared/ui.rs lines 19-25). -/
structure RepositorySelectionItem where
  path : List Char
  repo_subpath : List Char
  category : List Char
  snapshots : List SnapshotItem
  deriving DecidableEq

/-- Rust `Iterator::max_by_key` keyed on snapshot time: the snapshot with the
maximal time, the last such on ties, `none` on an empty list. -/
def max_by_key_time : List SnapshotItem → Option SnapshotItem
  | [] => none
  | s :: rest =>
    match max_by_key_time rest with
    | none => some s
    | some m => if s.time ≤ m.time then some m else some s

/-- Snapshot choice of `RestoreWorkflow::restore_repositories`
(src/shared/restore_workflow.rs lines 208-219): prefer the newest snapshot
in the 5-minute window starting at the selected timestamp
(`Duration::minutes(5)` is 300 seconds), else fall back to the newest
snapshot strictly before the selected timestamp. -/
def best_snapshot (snapshots : List SnapshotItem) (selected_timestamp : Int) :
    Option SnapshotItem :=
  let window_end := selected_timestamp + 5 * 60
  match max_by_key_time (snapshots.filter
      (fun s => decide (selected_timestamp ≤ s.time ∧ s.time < window_end))) with
  | some s => some s
  | none =>
    max_by_key_time (snapshots.filter (fun s => decide (s.time < selected_timestamp)))

/-- Rust `Vec::dedup`: remove consecutive duplicate timestamps, keeping the first
of each run. -/
def dedupConsecutive : List Int → List Int
  | [] => []
  | [a] => [a]
  | a :: b :: rest =>
    if a = b then dedupConsecutive (b :: rest) else a :: dedupConsecutive (b :: rest)

/-- Insertion into a non-decreasing list, the auxiliary step of
`sortTimestamps`. -/
def insertSorted (x : Int) : List Int → List Int
  | [] => [x]
  | y :: rest => if x ≤ y then x :: y :: rest else y :: insertSorted x rest

/-- Rust `Vec::sort` on the timestamp list: sorting into non-decreasing order.
On integers a sorted permutation is unique, so this insertion sort computes
the same list as Rust's (stable) sort. -/
def sortTimestamps : List Int → List Int
  | [] => []
  | x :: rest => insertSorted x (sortTimestamps rest)

/-- The timestamp list assembled by `select_timestamp` (src/shared/ui.rs
lines 164-171): all snapshot times of the selected repositories, sorted,
reversed (newest first), with consecutive duplicates removed. -/
def all_timestamps (selected_repos : List RepositorySelectionItem) : List Int :=
  let ts := (selected_repos.flatMap (fun r => r.snapshots)).map (fun s => s.time)
  dedupConsecutive ((sortTimestamps ts).reverse)

/-- The window-start loop of `select_timestamp` (src/shared/ui.rs lines
179-203): for each timestamp, `ts.timestamp() - (ts.timestamp() % 300)`
(Rust `%` on signed integers is truncated remainder, `Int.tmod`), pushed
onto the accumulator unless already present. -/
def window_starts_loop : List Int → List Int → List Int
  | [], window_times => window_times
  | ts :: rest, window_times =>
    let window_start := ts - Int.tmod ts 300
    if window_start ∈ window_times then window_starts_loop rest window_times
    else window_starts_loop rest (window_times ++ [window_start])

/-- The distinct 5-minute window starts offered by `select_timestamp`
(src/shared/ui.rs lines 157-214) for the selected repositories. -/
def select_timestamp_windows (selected_repos : List RepositorySelectionItem) :
    List Int :=
  window_starts_loop (all_timestamps selected_repos) []

/-- Discovered repository record (`RepositoryInfo`, src/helpers.rs
lines 283-288). -/
structure RepositoryInfo where
  native_path : List Char
  repo_subpath : List Char
  category : List Char
  deriving DecidableEq

/-- Scanner `RepositoryScanner::scan_nested_docker_repositories` (src/helpers.rs
lines 205-232), applied to the directory names listed inside one volume's
prefix (the `Ok` case of the listing; a failed listing contributes no
entries): every non-internal name becomes a nested repository. -/
def scan_nested_docker_repositories (volume : List Char) :
    List (List Char) → List RepositoryInfo
  | [] => []
  | nested_repo :: rest =>
    if is_restic_internal_dir nested_repo then
      scan_nested_docker_repositories volume rest
    else
      { native_path := str "/mnt/docker-data/volumes/" ++ volume ++ str "/" ++ nested_repo,
        repo_subpath := str "docker_volume/" ++ volume ++ str "/" ++ nested_repo,
        category := str "docker_volume" } :: scan_nested_docker_repositories volume rest

/-- Counting loop of `RestoreWorkflow::restore_repositories`
(src/shared/restore_workflow.rs lines 187-274) in the run where every
issued restic restore command succeeds: a repository with a best snapshot
is restored, one without is skipped. -/
def restore_repositories_counts (selected_repos : List RepositorySelectionItem)
    (selected_timestamp : Int) : Nat × Nat :=
  match selected_repos with
  | [] => (0, 0)
  | repo :: rest =>
    let prev := restore_repositories_counts rest selected_timestamp
    match best_snapshot repo.snapshots selected_timestamp with
    | some _ => (prev.1 + 1, prev.2)
    | none => (prev.1, prev.2 + 1)

/-- Result of `RestoreWorkflow::execute_restoration_phase`
(src/shared/restore_workflow.rs lines 140-184) as a function of the counts
returned by `restore_repositories`: the summary branch only logs (an info
summary when something was restored, a warning otherwise) and the function
returns `Ok(())` in both branches. -/
def restoration_phase_outcome (restored_count : Nat) (_skipped_count : Nat) :
    Except BackupServiceError Unit :=
  if restored_count > 0 then .ok () else .ok ()

/-- Snapshot record of the listing pipeline (`SnapshotInfo`,
src/helpers.rs lines 294-299 and src/list.rs lines 335-340). -/
structure SnapshotInfo where
  time : Int
  path : List Char
  id : List Char
  deriving DecidableEq

/-- Raw snapshot record delivered by the backup engine, as consumed by
`get_snapshots`: `time_str` models `s["time"].as_str()` and `short_id`
models `s["short_id"].as_str()` (either JSON field may be absent or not a
string). -/
structure RawSnapshot where
  time_str : Option (List Char)
  short_id : Option (List Char)
  deriving DecidableEq

/-- The `filter_map` closure of `get_snapshots` (src/helpers.rs lines
262-273, identically src/list.rs lines 221-233): keep a record only when
its timestamp parses and its short id is present.  `parse` stands for
`str::parse::<DateTime<Utc>>`. -/
def snapshot_record_extract (parse : List Char → Option Int)
    (native_path : List Char) (s : RawSnapshot) : Option SnapshotInfo :=
  match s.time_str with
  | none => none
  | some ts =>
    match parse ts with
    | none => none
    | some time =>
      match s.short_id with
      | none => none
      | some id => some { time := time, path := native_path, id := id }

/-- Post-processing of `SnapshotCollector::get_snapshots` (src/helpers.rs
lines 249-276) on a successfully delivered list of raw records: the count
is the raw length, the records are the extractable ones. -/
def get_snapshots_result (parse : List Char → Option Int)
    (native_path : List Char) (raws : List RawSnapshot) :
    Nat × List SnapshotInfo :=
  (raws.length, raws.filterMap (snapshot_record_extract parse native_path))

/-- Struct `BackupRepo` (src/repository.rs lines 5-22) as constructed by the
listing scan: a native path with its snapshot count. -/
structure BackupRepo where
  native_path : List Char
  snapshot_count : Nat
  deriving DecidableEq

/-- Collaborator oracle for the `list_backups` scan (src/list.rs): the
result of each `list_s3_dirs` call keyed by its S3 path, and the result of
each `get_snapshots` call keyed by repository subpath and native path. -/
structure ScanWorld where
  listDirs : List Char → Except BackupServiceError (List (List Char))
  getSnapshots : List Char → List Char →
    Except BackupServiceError (Nat × List SnapshotInfo)

/-- Inner loop of the user-home phase of `list_backups` (src/list.rs lines
74-98): per subdirectory, fetch snapshots; keep the repository when the
count is positive; return the error on `AuthenticationFailed`; skip the
repository on any other error. -/
def scan_user_subdirs (w : ScanWorld) (user : List Char) :
    List (List Char) → Except BackupServiceError (List BackupRepo × List SnapshotInfo)
  | [] => .ok ([], [])
  | subdir :: rest =>
    let native_subdir := s3_to_native_path subdir
    let native_path := str "/home/" ++ user ++ str "/" ++ native_subdir
    let repo_subpath := str "user_home/" ++ user ++ str "/" ++ subdir
    match w.getSnapshots repo_subpath native_path with
    | .ok (count, snapshots) =>
      match scan_user_subdirs w user rest with
      | .ok (repos, snaps) =>
        if count > 0 then .ok (⟨native_path, count⟩ :: repos, snapshots ++ snaps)
        else .ok (repos, snaps)
      | .error e => .error e
    | .error .authenticationFailed => .error .authenticationFailed
    | .error _ => scan_user_subdirs w user rest

/-- Outer loop of the user-home phase of `list_backups` (src/list.rs lines
71-100): per user, list the user's subdirectories; a failed listing is
swallowed by `if let Ok` and contributes nothing. -/
def scan_users (w : ScanWorld) (user_home_path : List Char) :
    List (List Char) → Except BackupServiceError (List BackupRepo × List SnapshotInfo)
  | [] => .ok ([], [])
  | user :: rest =>
    let inner :=
      match w.listDirs (user_home_path ++ str "/" ++ user) with
      | .ok subdirs => scan_user_subdirs w user subdirs
      | .error _ => .ok ([], [])
    match inner with
    | .ok (repos, snaps) =>
      match scan_users w user_home_path rest with
      | .ok (repos2, snaps2) => .ok (repos ++ repos2, snaps ++ snaps2)
      | .error e => .error e
    | .error e => .error e

/-- Nested-repository loop of the docker phase of `list_backups`
(src/list.rs lines 123-143), over the non-internal directory names of one
volume. -/
def scan_nested_volume (w : ScanWorld) (volume : List Char) :
    List (List Char) → Except BackupServiceError (List BackupRepo × List SnapshotInfo)
  | [] => .ok ([], [])
  | nested_repo :: rest =>
    let nested_path := str "/mnt/docker-data/volumes/" ++ volume ++ str "/" ++ nested_repo
    let nested_repo_subpath := str "docker_volume/" ++ volume ++ str "/" ++ nested_repo
    match w.getSnapshots nested_repo_subpath nested_path with
    | .ok (nested_count, nested_snapshots) =>
      match scan_nested_volume w volume rest with
      | .ok (repos, snaps) =>
        if nested_count > 0 then
          .ok (⟨nested_path, nested_count⟩ :: repos, nested_snapshots ++ snaps)
        else .ok (repos, snaps)
      | .error e => .error e
    | .error .authenticationFailed => .error .authenticationFailed
    | .error _ => scan_nested_volume w volume rest

/-- Docker-volume phase of `list_backups` (src/list.rs lines 102-157): per
volume, fetch direct snapshots; with a positive count keep the volume
repository, otherwise look for nested repositories (again swallowing a
failed listing); return the error on `AuthenticationFailed`; skip the
volume on any other error. -/
def scan_volumes (w : ScanWorld) (docker_path : List Char) :
    List (List Char) → Except BackupServiceError (List BackupRepo × List SnapshotInfo)
  | [] => .ok ([], [])
  | volume :: rest =>
    let native_path := str "/mnt/docker-data/volumes/" ++ volume
    let repo_subpath := str "docker_volume/" ++ volume
    match w.getSnapshots repo_subpath native_path with
    | .ok (count, snapshots) =>
      let current :
          Except BackupServiceError (List BackupRepo × List SnapshotInfo) :=
        if count > 0 then .ok ([⟨native_path, count⟩], snapshots)
        else
          match w.listDirs (docker_path ++ str "/" ++ volume) with
          | .ok nested =>
            scan_nested_volume w volume
              (nested.filter (fun d => !is_restic_internal_dir d))
          | .error _ => .ok ([], [])
      match current with
      | .ok (repos, snaps) =>
        match scan_volumes w docker_path rest with
        | .ok (repos2, snaps2) => .ok (repos ++ repos2, snaps ++ snaps2)
        | .error e => .error e
      | .error e => .error e
    | .error .authenticationFailed => .error .authenticationFailed
    | .error _ => scan_volumes w docker_path rest

/-- System phase of `list_backups` (src/list.rs lines 159-184). -/
def scan_system_paths (w : ScanWorld) :
    List (List Char) → Except BackupServiceError (List BackupRepo × List SnapshotInfo)
  | [] => .ok ([], [])
  | path :: rest =>
    let native_path := str "/" ++ s3_to_native_path path
    let repo_subpath := str "system/" ++ path
    match w.getSnapshots repo_subpath native_path with
    | .ok (count, snapshots) =>
      match scan_system_paths w rest with
      | .ok (repos, snaps) =>
        if count > 0 then .ok (⟨native_path, count⟩ :: repos, snapshots ++ snaps)
        else .ok (repos, snaps)
      | .error e => .error e
    | .error .authenticationFailed => .error .authenticationFailed
    | .error _ => scan_system_paths w rest

/-- The repository/snapshot scan of `list_backups` (src/list.rs lines
66-184): the three category phases in order, each phase's top-level listing
failure swallowed by `if let Ok`. -/
def list_backups_scan (w : ScanWorld) (base_path hostname : List Char) :
    Except BackupServiceError (List BackupRepo × List SnapshotInfo) :=
  let phase1 :=
    match w.listDirs (base_path ++ str "/" ++ hostname ++ str "/user_home") with
    | .ok users =>
      scan_users w (base_path ++ str "/" ++ hostname ++ str "/user_home") users
    | .error _ => .ok ([], [])
  match phase1 with
  | .error e => .error e
  | .ok (r1, s1) =>
    let docker_path := base_path ++ str "/" ++ hostname ++ str "/docker_volume"
    let phase2 :=
      match w.listDirs docker_path with
      | .ok volumes => scan_volumes w docker_path volumes
      | .error _ => .ok ([], [])
    match phase2 with
    | .error e => .error e
    | .ok (r2, s2) =>
      let phase3 :=
        match w.listDirs (base_path ++ str "/" ++ hostname ++ str "/system") with
        | .ok paths => scan_system_paths w paths
        | .error _ => .ok ([], [])
      match phase3 with
      | .error e => .error e
      | .ok (r3, s3) => .ok (r1 ++ r2 ++ r3, s1 ++ s2 ++ s3)

/-- A collaborator behaviour in which the snapshot fetch for the single
discovered user-home repository fails with `NetworkError` and every other
call succeeds. -/
def scanWorldNet : ScanWorld where
  listDirs := fun p =>
    if p = str "backup/host1/user_home" then .ok [str "tim"]
    else if p = str "backup/host1/user_home/tim" then .ok [str "docs"]
    else .ok []
  getSnapshots := fun repo_subpath _native =>
    if repo_subpath = str "user_home/tim/docs" then .error .networkError
    else .ok (0, [])

/-- The same collaborator behaviour, with the failing call classified as
`AuthenticationFailed` instead. -/
def scanWorldAuth : ScanWorld where
  listDirs := fun p =>
    if p = str "backup/host1/user_home" then .ok [str "tim"]
    else if p = str "backup/host1/user_home/tim" then .ok [str "docs"]
    else .ok []
  getSnapshots := fun repo_subpath _native =>
    if repo_subpath = str "user_home/tim/docs" then .error .authenticationFailed
    else .ok (0, [])

/-- A single repository whose only snapshot is one second before the epoch;
concrete input for the window-start analysis. -/
def winRepoNeg : List RepositorySelectionItem :=
  [{ path := str "/x", repo_subpath := str "system/x",
     category := str "system",
     snapshots := [{ id := str "a", time := -1 }] }]

/-- A single repository with three snapshots falling into three distinct
5-minute windows; concrete input for the window-start analysis. -/
def winReposEx : List RepositorySelectionItem :=
  [{ path := str "/x", repo_subpath := str "system/x",
     category := str "system",
     snapshots := [{ id := str "a", time := 37680 },
       { id := str "b", time := 37860 }, { id := str "c", time := 38160 }] }]

/-- The three snapshots of the specification's selection example, at 10:28,
10:31 and 10:36 in seconds of the day. -/
def snapsEx : List SnapshotItem :=
  [{ id := str "a", time := 37680 }, { id := str "b", time := 37860 },
   { id := str "c", time := 38160 }]

/-- Concrete timestamp parser used in closed instances: accepts the two
literals `t1` and `t2`. -/
def parseEx : List Char → Option Int := fun ts =>
  if ts = str "t1" then some 100 else if ts = str "t2" then some 200 else none

/-- Concrete raw snapshot list used in closed instances: one extractable
record and one with an unparsable timestamp. -/
def rawsEx : List RawSnapshot :=
  [{ time_str := some (str "t1"), short_id := some (str "id1") },
   { time_str := some (str "bad"), short_id := some (str "id2") }]

/-- The authentication token set of the error classifier: some
access/credential token occurs in the (lowercased) diagnostic text. -/
abbrev auth_token_match (l : List Char) : Prop :=
  (str "access denied") <:+: l ∨ (str "invalid credentials") <:+: l ∨
  (str "authorization") <:+: l ∨ (str "forbidden") <:+: l ∨
  (str "access key") <:+: l ∨ (str "secret key") <:+: l

/-- The connectivity token set of the error classifier: some network token
occurs in the (lowercased) diagnostic text. -/
abbrev network_token_match (l : List Char) : Prop :=
  (str "network") <:+: l ∨ (str "connection") <:+: l ∨
  (str "timeout") <:+: l ∨ (str "unreachable") <:+: l ∨ (str "dns") <:+: l

/-- Boolean prefix test on character lists agrees with the prefix relation. -/
theorem isPrefixOfIff (l₁ l₂ : List Char) : l₁.isPrefixOf l₂ = true ↔ l₁ <+: l₂ :=
  List.isPrefixOf_iff_prefix

/-- A proper extension of a list is strictly longer and distinct from it. -/
theorem prefix_proper_iff (l p : List Char) (h : l <+: p) :
    p ≠ l ↔ l.length < p.length := by
  obtain ⟨t, ht⟩ := h
  subst ht
  constructor
  · intro hne
    cases t with
    | nil => simp at hne
    | cons a t => simp [Nat.lt_add_of_pos_right]
  · intro hlt heq
    have : t = [] := by
      have := congrArg List.length heq
      simp at this
      simp [this]
    simp [this] at hlt

/-- C5: the classifier sends the boundary paths `/home`, `/home/`, the bare
volumes root (with or without trailing slash) to `system`, a real user
directory to `user_home`, a real volume to `docker_volume`; and in general
a path is classified `user_home` exactly when it starts with `/home/` and
has at least one further character after that prefix. -/
theorem category_boundary_spec :
    category (str "/home") = str "system" ∧
    category (str "/home/") = str "system" ∧
    category (str "/home/tim") = str "user_home" ∧
    category (str "/mnt/docker-data/volumes") = str "system" ∧
    category (str "/mnt/docker-data/volumes/") = str "system" ∧
    category (str "/mnt/docker-data/volumes/x") = str "docker_volume" ∧
    ∀ p : List Char, category p = str "user_home" ↔
      ((str "/home/") <+: p ∧ 6 < p.length) := by
  refine ⟨by decide, by decide, by decide, by decide, by decide, by decide, ?_⟩
  intro p
  constructor
  · intro hcat
    by_cases h1 : (str "/home/").isPrefixOf p = true ∧ p ≠ str "/home/"
    · have hpre := (isPrefixOfIff _ _).mp h1.1
      refine ⟨hpre, ?_⟩
      have := (prefix_proper_iff _ _ hpre).mp h1.2
      simpa using this
    · exfalso
      rw [category, if_neg h1] at hcat
      by_cases h2 : (str "/mnt/docker-data/volumes/").isPrefixOf p = true ∧
          p ≠ str "/mnt/docker-data/volumes/"
      · rw [if_pos h2] at hcat
        exact absurd hcat (by decide)
      · rw [if_neg h2] at hcat
        exact absurd hcat (by decide)
  · rintro ⟨hpre, hlen⟩
    have hne : p ≠ str "/home/" := by
      refine (prefix_proper_iff _ _ hpre).mpr ?_
      simpa using hlen
    rw [category, if_pos ⟨(isPrefixOfIff _ _).mpr hpre, hne⟩]

/-- C5 witness: concrete instance of the general `user_home` characterisation. -/
theorem category_boundary_spec_witness :
    ((str "/home/") <+: str "/home/tim" ∧ 6 < (str "/home/tim").length) ∧
    category (str "/home/tim") = str "user_home" :=
  ⟨by decide, (category_boundary_spec.2.2.2.2.2.2 (str "/home/tim")).mpr (by decide)⟩

/-- C6: the decoder replaces every underscore by `/` when the segment has
more than one underscore and leaves the segment unchanged otherwise, with
the three example decodings from the specification. -/
theorem s3_to_native_path_spec (s : List Char) :
    (1 < s.count '_' →
      s3_to_native_path s = s.map (fun c => if c = '_' then '/' else c)) ∧
    (s.count '_' ≤ 1 → s3_to_native_path s = s) ∧
    s3_to_native_path (str "single") = str "single" ∧
    s3_to_native_path (str "my_deep_path") = str "my/deep/path" ∧
    s3_to_native_path (str "my_file") = str "my_file" := by
  refine ⟨?_, ?_, by decide, by decide, by decide⟩
  · intro h
    rw [s3_to_native_path, if_pos h]
  · intro h
    rw [s3_to_native_path, if_neg (by omega)]

/-- C6 witness: the two decode rules at concrete segments. -/
theorem s3_to_native_path_spec_witness :
    (1 < (str "a_b_c").count '_' ∧
      s3_to_native_path (str "a_b_c") =
        (str "a_b_c").map (fun c => if c = '_' then '/' else c)) ∧
    ((str "a_b").count '_' ≤ 1 ∧ s3_to_native_path (str "a_b") = str "a_b") :=
  ⟨⟨by decide, (s3_to_native_path_spec (str "a_b_c")).1 (by decide)⟩,
   ⟨by decide, (s3_to_native_path_spec (str "a_b")).2.1 (by decide)⟩⟩

/-- C1 counterexample: at the boundary path `/home/` the encoder produces the
key `user_home/` whose first segment names category `user_home`, while the
classifier says `system`; so classifier and encoded-key category disagree. -/
theorem encode_classify_counterexample :
    path_to_repo_subpath (str "/home/") = str "user_home/" ∧
    firstSegment (path_to_repo_subpath (str "/home/")) = str "user_home" ∧
    category (str "/home/") = str "system" ∧
    firstSegment (path_to_repo_subpath (str "/home/")) ≠ category (str "/home/") := by
  refine ⟨by decide, by decide, by decide, by decide⟩

/-- C1 amended: for every native path other than the two bare boundary paths
`/home/` and `/mnt/docker-data/volumes/`, the category computed by the
classifier equals the category named by the first segment of the encoded
repository key (`user_home`, `docker_volume` or `system`). -/
theorem encode_classify_agree (p : List Char)
    (h1 : p ≠ str "/home/") (h2 : p ≠ str "/mnt/docker-data/volumes/") :
    firstSegment (path_to_repo_subpath p) = category p := by
  by_cases hh : (str "/home/").isPrefixOf p = true
  · have hcat : category p = str "user_home" := by
      rw [category, if_pos ⟨hh, h1⟩]
    rw [hcat, path_to_repo_subpath, if_pos hh]
    rcases hsplit : (p.drop (str "/home/").length).splitOn '/' with _ | ⟨username, rest⟩
    · simp only [hsplit]
      decide
    · simp only [hsplit]
      by_cases he : rest.isEmpty
      · rw [if_pos he]
        rfl
      · rw [if_neg he]
        rfl
  · by_cases hv : (str "/mnt/docker-data/volumes/").isPrefixOf p = true
    · have hcat : category p = str "docker_volume" := by
        rw [category, if_neg (by simp [hh]), if_pos ⟨hv, h2⟩]
      rw [hcat, path_to_repo_subpath, if_neg hh, if_pos hv]
      by_cases he : (p.drop (str "/mnt/docker-data/volumes/").length).isEmpty
      · rw [if_pos he]
        decide
      · rw [if_neg he]
        rfl
    · have hcat : category p = str "system" := by
        rw [category, if_neg (by simp [hh]), if_neg (by simp [hv])]
      rw [hcat, path_to_repo_subpath, if_neg hh, if_neg hv]
      by_cases he : (p.dropWhile (fun c => c = '/')).isEmpty
      · rw [if_pos he]
        decide
      · rw [if_neg he]
        rfl

/-- C1 witness: agreement at the ordinary path `/home/tim/docs`. -/
theorem encode_classify_agree_witness :
    str "/home/tim/docs" ≠ str "/home/" ∧
    str "/home/tim/docs" ≠ str "/mnt/docker-data/volumes/" ∧
    firstSegment (path_to_repo_subpath (str "/home/tim/docs")) =
      category (str "/home/tim/docs") :=
  ⟨by decide, by decide,
    encode_classify_agree (str "/home/tim/docs") (by decide) (by decide)⟩

/-- C9: the error classifier checks case-insensitive substrings in priority
order: an authentication token yields `authenticationFailed`; otherwise a
network token yields `networkError`; otherwise the presence of both
`repository` and `not found` yields `repositoryNotFound` with the call
context; otherwise `commandFailed` carries the raw diagnostic text. -/
theorem from_stderr_spec (stderr context : List Char) :
    (auth_token_match (toLowerStr stderr) →
      from_stderr stderr context = .authenticationFailed) ∧
    (¬auth_token_match (toLowerStr stderr) →
      network_token_match (toLowerStr stderr) →
      from_stderr stderr context = .networkError) ∧
    (¬auth_token_match (toLowerStr stderr) →
      ¬network_token_match (toLowerStr stderr) →
      (str "repository") <:+: toLowerStr stderr →
      (str "not found") <:+: toLowerStr stderr →
      from_stderr stderr context = .repositoryNotFound context) ∧
    (¬auth_token_match (toLowerStr stderr) →
      ¬network_token_match (toLowerStr stderr) →
      ¬((str "repository") <:+: toLowerStr stderr ∧
        (str "not found") <:+: toLowerStr stderr) →
      from_stderr stderr context = .commandFailed stderr) := by
  have hA : ∀ l : List Char,
      (containsSub l (str "access denied") ||
        containsSub l (str "invalid credentials") ||
        containsSub l (str "authorization") || containsSub l (str "forbidden") ||
        containsSub l (str "access key") || containsSub l (str "secret key")) = true ↔
      auth_token_match l := by
    intro l
    simp [containsSub, auth_token_match, Bool.or_eq_true, decide_eq_true_eq, or_assoc]
  have hN : ∀ l : List Char,
      (containsSub l (str "network") || containsSub l (str "connection") ||
        containsSub l (str "timeout") || containsSub l (str "unreachable") ||
        containsSub l (str "dns")) = true ↔
      network_token_match l := by
    intro l
    simp [containsSub, network_token_match, Bool.or_eq_true, decide_eq_true_eq,
      or_assoc]
  have hR : ∀ l : List Char,
      (containsSub l (str "repository") && containsSub l (str "not found")) = true ↔
      ((str "repository") <:+: l ∧ (str "not found") <:+: l) := by
    intro l
    simp [containsSub, Bool.and_eq_true, decide_eq_true_eq]
  refine ⟨?_, ?_, ?_, ?_⟩
  · intro h
    unfold from_stderr
    rw [if_pos ((hA _).mpr h)]
  · intro hna h
    unfold from_stderr
    rw [if_neg (fun hc => hna ((hA _).mp hc)), if_pos ((hN _).mpr h)]
  · intro hna hnn h1 h2
    unfold from_stderr
    rw [if_neg (fun hc => hna ((hA _).mp hc)),
      if_neg (fun hc => hnn ((hN _).mp hc)), if_pos ((hR _).mpr ⟨h1, h2⟩)]
  · intro hna hnn hnr
    unfold from_stderr
    rw [if_neg (fun hc => hna ((hA _).mp hc)),
      if_neg (fun hc => hnn ((hN _).mp hc)), if_neg (fun hc => hnr ((hR _).mp hc))]

/-- C9 witness: a text carrying both an authentication token and a network
token classifies as `authenticationFailed`. -/
theorem from_stderr_spec_witness :
    auth_token_match (toLowerStr (str "Fatal: ACCESS DENIED after network timeout")) ∧
    network_token_match (toLowerStr (str "Fatal: ACCESS DENIED after network timeout")) ∧
    from_stderr (str "Fatal: ACCESS DENIED after network timeout") (str "repo") =
      .authenticationFailed :=
  ⟨by decide, by decide,
    (from_stderr_spec (str "Fatal: ACCESS DENIED after network timeout")
      (str "repo")).1 (by decide)⟩

/-- C7: the nested-volume scan turns exactly the non-reserved directory
names into nested repositories with the volume-qualified native path and
repository key, and on the listing
`data, index, keys, snapshots, locks, real-app` produces exactly the one
nested repository for `real-app`. -/
theorem scan_nested_docker_spec (volume : List Char) (nested : List (List Char)) :
    scan_nested_docker_repositories volume nested =
      (nested.filter (fun d => !is_restic_internal_dir d)).map
        (fun n =>
          { native_path := str "/mnt/docker-data/volumes/" ++ volume ++ str "/" ++ n,
            repo_subpath := str "docker_volume/" ++ volume ++ str "/" ++ n,
            category := str "docker_volume" }) ∧
    scan_nested_docker_repositories volume
        [str "data", str "index", str "keys", str "snapshots", str "locks",
          str "real-app"] =
      [{ native_path :=
            str "/mnt/docker-data/volumes/" ++ volume ++ str "/" ++ str "real-app",
          repo_subpath := str "docker_volume/" ++ volume ++ str "/" ++ str "real-app",
          category := str "docker_volume" }] := by
  constructor
  · induction nested with
    | nil => rfl
    | cons n rest ih =>
      by_cases h : is_restic_internal_dir n = true
      · simp [scan_nested_docker_repositories, h, ih]
      · simp [scan_nested_docker_repositories, h, ih]
  · rfl

/-- A successful extraction pins down the raw record's fields. -/
theorem snapshot_record_extract_some (parse : List Char → Option Int)
    (native_path : List Char) (s : RawSnapshot) (info : SnapshotInfo)
    (h : snapshot_record_extract parse native_path s = some info) :
    ∃ ts, s.time_str = some ts ∧ parse ts = some info.time ∧
      s.short_id = some info.id ∧ info.path = native_path := by
  unfold snapshot_record_extract at h
  split at h
  · exact Option.noConfusion h
  · rename_i ts hts
    split at h
    · exact Option.noConfusion h
    · rename_i time hp
      split at h
      · exact Option.noConfusion h
      · rename_i id hid
        cases h
        exact ⟨ts, hts, hp, hid, rfl⟩

/-- The kept part of a `filterMap` is strictly shorter exactly when some
element is dropped. -/
theorem length_filterMap_lt_iff {α β : Type} (f : α → Option β) (l : List α) :
    (l.filterMap f).length < l.length ↔ ∃ a ∈ l, f a = none := by
  induction l with
  | nil => simp
  | cons a rest ih =>
    rcases hf : f a with _ | b
    · simp only [List.filterMap_cons, hf, List.mem_cons, List.length_cons]
      constructor
      · intro _
        exact ⟨a, Or.inl rfl, hf⟩
      · intro _
        exact Nat.lt_succ_of_le (List.length_filterMap_le f rest)
    · simp only [List.filterMap_cons, hf, List.mem_cons, List.length_cons]
      constructor
      · intro hlt
        obtain ⟨x, hx, hfx⟩ := ih.mp (by omega)
        exact ⟨x, Or.inr hx, hfx⟩
      · rintro ⟨x, hx | hx, hfx⟩
        · rw [hx] at hfx
          rw [hf] at hfx
          cases hfx
        · have := ih.mpr ⟨x, hx, hfx⟩
          omega

/-- C10: the snapshot listing reports the raw record count while returning
only the extractable records (parsable timestamp, present short id), so the
count is at least the returned length and exceeds it exactly when a record
was dropped. -/
theorem get_snapshots_count_spec (parse : List Char → Option Int)
    (native_path : List Char) (raws : List RawSnapshot) :
    (get_snapshots_result parse native_path raws).1 = raws.length ∧
    (∀ info ∈ (get_snapshots_result parse native_path raws).2,
      ∃ s ∈ raws, snapshot_record_extract parse native_path s = some info ∧
        ∃ ts, s.time_str = some ts ∧ parse ts = some info.time ∧
          s.short_id = some info.id ∧ info.path = native_path) ∧
    (get_snapshots_result parse native_path raws).2.length ≤
      (get_snapshots_result parse native_path raws).1 ∧
    ((get_snapshots_result parse native_path raws).2.length <
        (get_snapshots_result parse native_path raws).1 ↔
      ∃ s ∈ raws, snapshot_record_extract parse native_path s = none) := by
  refine ⟨rfl, ?_, ?_, ?_⟩
  · intro info hinfo
    obtain ⟨s, hs, hex⟩ := List.mem_filterMap.mp hinfo
    exact ⟨s, hs, hex, snapshot_record_extract_some parse native_path s info hex⟩
  · exact List.length_filterMap_le _ _
  · exact length_filterMap_lt_iff _ _

/-- C10 witness: with one extractable and one unparsable raw record the
returned record originates from a raw record, and the count strictly
exceeds the returned length. -/
theorem get_snapshots_count_spec_witness :
    ({ time := 100, path := str "/p", id := str "id1" } : SnapshotInfo) ∈
      (get_snapshots_result parseEx (str "/p") rawsEx).2 ∧
    (∃ s ∈ rawsEx, snapshot_record_extract parseEx (str "/p") s =
        some { time := 100, path := str "/p", id := str "id1" } ∧
      ∃ ts, s.time_str = some ts ∧ parseEx ts = some 100 ∧
        s.short_id = some (str "id1") ∧ str "/p" = str "/p") :=
  ⟨by decide,
    (get_snapshots_count_spec parseEx (str "/p") rawsEx).2.1
      { time := 100, path := str "/p", id := str "id1" } (by decide)⟩

/-- C8 counterexample: a batch whose only repository has no snapshots ends
with zero restored and one skipped, and the restoration phase nevertheless
returns success, not an error. -/
theorem restoration_zero_restored_counterexample :
    restore_repositories_counts
        [{ path := str "/etc/nginx", repo_subpath := str "system/etc_nginx",
           category := str "system", snapshots := [] }] 1000 = (0, 1) ∧
    restoration_phase_outcome 0 1 = .ok () ∧
    ∀ e, restoration_phase_outcome 0 1 ≠ .error e := by
  refine ⟨by decide, rfl, ?_⟩
  intro e h
  rw [show restoration_phase_outcome 0 1 = .ok () from rfl] at h
  exact Except.noConfusion h

/-- C8 amended: the batch counts restored repositories (those with a best
snapshot) and skipped ones (those without), and the restoration phase
returns success in every case — a zero-restored batch with skips is only
reported through the logged warning, never as an error result. -/
theorem restoration_phase_spec (selected_repos : List RepositorySelectionItem)
    (selected_timestamp : Int) :
    (restore_repositories_counts selected_repos selected_timestamp).1 =
      (selected_repos.filter
        (fun r => (best_snapshot r.snapshots selected_timestamp).isSome)).length ∧
    (restore_repositories_counts selected_repos selected_timestamp).2 =
      (selected_repos.filter
        (fun r => !(best_snapshot r.snapshots selected_timestamp).isSome)).length ∧
    restoration_phase_outcome
        (restore_repositories_counts selected_repos selected_timestamp).1
        (restore_repositories_counts selected_repos selected_timestamp).2 =
      .ok () := by
  refine ⟨?_, ?_, ?_⟩
  · induction selected_repos with
    | nil => rfl
    | cons repo rest ih =>
      rcases hb : best_snapshot repo.snapshots selected_timestamp with _ | sn
      · simp [restore_repositories_counts, hb, List.filter_cons, ih]
      · simp [restore_repositories_counts, hb, List.filter_cons, ih]
  · induction selected_repos with
    | nil => rfl
    | cons repo rest ih =>
      rcases hb : best_snapshot repo.snapshots selected_timestamp with _ | sn
      · simp [restore_repositories_counts, hb, List.filter_cons, ih]
      · simp [restore_repositories_counts, hb, List.filter_cons, ih]
  · unfold restoration_phase_outcome
    split <;> rfl

/-- The function `max_by_key_time` finds nothing exactly on the empty list. -/
theorem max_by_key_time_eq_none (l : List SnapshotItem) :
    max_by_key_time l = none ↔ l = [] := by
  cases l with
  | nil => simp [max_by_key_time]
  | cons s rest =>
    simp only [max_by_key_time]
    rcases hr : max_by_key_time rest with _ | m2 <;> simp [hr]
    split <;> simp

/-- The function `max_by_key_time` returns an element of the list. -/
theorem max_by_key_time_mem (l : List SnapshotItem) (m : SnapshotItem)
    (h : max_by_key_time l = some m) : m ∈ l := by
  induction l generalizing m with
  | nil => cases h
  | cons s rest ih =>
    simp only [max_by_key_time] at h
    rcases hr : max_by_key_time rest with _ | m2 <;> simp only [hr] at h
    · cases h
      exact List.mem_cons_self s rest
    · by_cases hc : s.time ≤ m2.time
      · rw [if_pos hc] at h
        cases h
        exact List.mem_cons_of_mem _ (ih _ hr)
      · rw [if_neg hc] at h
        cases h
        exact List.mem_cons_self s rest

/-- The function `max_by_key_time` returns a snapshot of maximal time. -/
theorem max_by_key_time_le (l : List SnapshotItem) (m : SnapshotItem)
    (h : max_by_key_time l = some m) : ∀ x ∈ l, x.time ≤ m.time := by
  induction l generalizing m with
  | nil => simp
  | cons s rest ih =>
    intro x hx
    simp only [max_by_key_time] at h
    rcases hr : max_by_key_time rest with _ | m2 <;> simp only [hr] at h
    · cases h
      have : rest = [] := (max_by_key_time_eq_none rest).mp hr
      subst this
      rcases List.mem_cons.mp hx with rfl | hx'
      · exact le_refl _
      · cases hx'
    · by_cases hc : s.time ≤ m2.time
      · rw [if_pos hc] at h
        cases h
        rcases List.mem_cons.mp hx with rfl | hx'
        · exact hc
        · exact ih _ hr x hx'
      · rw [if_neg hc] at h
        cases h
        rcases List.mem_cons.mp hx with rfl | hx'
        · exact le_refl _
        · exact le_trans (ih _ hr x hx') (by omega)

/-- C3: the restore selection prefers the newest snapshot inside the
half-open 5-minute window `[t, t+300)`; with no window snapshot it falls
back to the newest snapshot strictly before `t`; with neither it selects
nothing, so the repository is skipped rather than treated as an error. -/
theorem best_snapshot_spec (snapshots : List SnapshotItem) (t : Int) :
    ((∃ s ∈ snapshots, t ≤ s.time ∧ s.time < t + 5 * 60) →
      ∃ m, best_snapshot snapshots t = some m ∧ m ∈ snapshots ∧
        (t ≤ m.time ∧ m.time < t + 5 * 60) ∧
        ∀ s ∈ snapshots, t ≤ s.time → s.time < t + 5 * 60 → s.time ≤ m.time) ∧
    ((∀ s ∈ snapshots, ¬(t ≤ s.time ∧ s.time < t + 5 * 60)) →
      (∃ s ∈ snapshots, s.time < t) →
      ∃ m, best_snapshot snapshots t = some m ∧ m ∈ snapshots ∧ m.time < t ∧
        ∀ s ∈ snapshots, s.time < t → s.time ≤ m.time) ∧
    ((∀ s ∈ snapshots, ¬(t ≤ s.time ∧ s.time < t + 5 * 60)) →
      (∀ s ∈ snapshots, ¬(s.time < t)) →
      best_snapshot snapshots t = none) := by
  refine ⟨?_, ?_, ?_⟩
  · rintro ⟨s0, hs0, hw0⟩
    rcases hw : max_by_key_time (snapshots.filter
        (fun s => decide (t ≤ s.time ∧ s.time < t + 5 * 60))) with _ | m
    · exfalso
      have : snapshots.filter
          (fun s => decide (t ≤ s.time ∧ s.time < t + 5 * 60)) = [] :=
        (max_by_key_time_eq_none _).mp hw
      have hmem : s0 ∈ snapshots.filter
          (fun s => decide (t ≤ s.time ∧ s.time < t + 5 * 60)) :=
        List.mem_filter.mpr ⟨hs0, by simpa using hw0⟩
      rw [this] at hmem
      cases hmem
    · refine ⟨m, ?_, ?_, ?_, ?_⟩
      · simp only [best_snapshot]
        rw [hw]
      · exact (List.mem_filter.mp (max_by_key_time_mem _ _ hw)).1
      · have := (List.mem_filter.mp (max_by_key_time_mem _ _ hw)).2
        simpa using this
      · intro s hs h1 h2
        exact max_by_key_time_le _ _ hw s
          (List.mem_filter.mpr ⟨hs, by simpa using ⟨h1, h2⟩⟩)
  · intro hnw
    rintro ⟨s0, hs0, hb0⟩
    have hfw : snapshots.filter
        (fun s => decide (t ≤ s.time ∧ s.time < t + 5 * 60)) = [] := by
      rw [List.filter_eq_nil_iff]
      intro s hs
      simpa using hnw s hs
    rcases hb : max_by_key_time (snapshots.filter
        (fun s => decide (s.time < t))) with _ | m
    · exfalso
      have : snapshots.filter (fun s => decide (s.time < t)) = [] :=
        (max_by_key_time_eq_none _).mp hb
      have hmem : s0 ∈ snapshots.filter (fun s => decide (s.time < t)) :=
        List.mem_filter.mpr ⟨hs0, by simpa using hb0⟩
      rw [this] at hmem
      cases hmem
    · refine ⟨m, ?_, ?_, ?_, ?_⟩
      · simp only [best_snapshot]
        rw [hfw]
        simp only [max_by_key_time]
        exact hb
      · exact (List.mem_filter.mp (max_by_key_time_mem _ _ hb)).1
      · have := (List.mem_filter.mp (max_by_key_time_mem _ _ hb)).2
        simpa using this
      · intro s hs h1
        exact max_by_key_time_le _ _ hb s
          (List.mem_filter.mpr ⟨hs, by simpa using h1⟩)
  · intro hnw hnb
    have hfw : snapshots.filter
        (fun s => decide (t ≤ s.time ∧ s.time < t + 5 * 60)) = [] := by
      rw [List.filter_eq_nil_iff]
      intro s hs
      simpa using hnw s hs
    have hfb : snapshots.filter (fun s => decide (s.time < t)) = [] := by
      rw [List.filter_eq_nil_iff]
      intro s hs
      simpa using hnb s hs
    simp only [best_snapshot]
    rw [hfw, hfb]
    rfl

/-- C3 witness: the specification's example — snapshots at 10:28, 10:31,
10:36 with target 10:30 (in Unix seconds of that day) select the 10:31
snapshot, the newest inside `[10:30, 10:35)`. -/
theorem best_snapshot_spec_witness :
    (∃ s ∈ snapsEx, (37800 : Int) ≤ s.time ∧ s.time < 37800 + 5 * 60) ∧
    ∃ m, best_snapshot snapsEx 37800 = some m ∧ m ∈ snapsEx ∧
      ((37800 : Int) ≤ m.time ∧ m.time < 37800 + 5 * 60) ∧
      ∀ s ∈ snapsEx,
        (37800 : Int) ≤ s.time → s.time < 37800 + 5 * 60 → s.time ≤ m.time :=
  ⟨by decide, (best_snapshot_spec snapsEx 37800).1 (by decide)⟩

/-- Truncated remainder negates with its dividend (at modulus 300). -/
theorem tmod_neg_left (a : Int) : Int.tmod (-a) 300 = -Int.tmod a 300 := by
  rcases a with m | m
  · rcases m with _ | m
    · decide
    · show Int.tmod (Int.negSucc m) 300 = -Int.tmod (Int.ofNat (m + 1)) 300
      simp [Int.tmod]
  · show Int.tmod (Int.ofNat (m + 1)) 300 = -Int.tmod (Int.negSucc m) 300
    simp [Int.tmod]

/-- Truncated remainder at 300 in terms of the Euclidean remainder. -/
theorem tmod_300_eq (x : Int) :
    Int.tmod x 300 = if 0 ≤ x then x % 300 else -((-x) % 300) := by
  by_cases hx : 0 ≤ x
  · rw [if_pos hx, Int.tmod_eq_emod hx (by norm_num)]
  · rw [if_neg hx]
    have h1 : Int.tmod (-x) 300 = (-x) % 300 :=
      Int.tmod_eq_emod (by omega) (by norm_num)
    have h2 := tmod_neg_left x
    omega

/-- Flooring to the truncated 300-second boundary is monotone. -/
theorem tmod_trunc_mono (a b : Int) (h : a ≤ b) :
    a - Int.tmod a 300 ≤ b - Int.tmod b 300 := by
  rw [tmod_300_eq a, tmod_300_eq b]
  split_ifs <;> omega

/-- Consecutive deduplication yields a sublist. -/
theorem dedupConsecutive_sublist : ∀ l : List Int, (dedupConsecutive l).Sublist l
  | [] => by simp [dedupConsecutive]
  | [a] => by simp [dedupConsecutive]
  | a :: b :: rest => by
    rw [dedupConsecutive]
    by_cases h : a = b
    · rw [if_pos h]
      exact (dedupConsecutive_sublist (b :: rest)).cons a
    · rw [if_neg h]
      exact (dedupConsecutive_sublist (b :: rest)).cons₂ a

/-- Consecutive deduplication preserves membership. -/
theorem mem_dedupConsecutive : ∀ (l : List Int) (x : Int),
    x ∈ dedupConsecutive l ↔ x ∈ l
  | [], x => by simp [dedupConsecutive]
  | [a], x => by simp [dedupConsecutive]
  | a :: b :: rest, x => by
    rw [dedupConsecutive]
    by_cases h : a = b
    · rw [if_pos h]
      rw [mem_dedupConsecutive (b :: rest) x]
      subst h
      simp only [List.mem_cons]
      tauto
    · rw [if_neg h]
      simp only [List.mem_cons, mem_dedupConsecutive (b :: rest) x]

/-- Membership in the window-start loop output: the accumulator together
with the truncated window starts of the remaining timestamps. -/
theorem mem_window_starts_loop : ∀ (tss acc : List Int) (w : Int),
    w ∈ window_starts_loop tss acc ↔
      w ∈ acc ∨ ∃ ts ∈ tss, w = ts - Int.tmod ts 300
  | [], acc, w => by simp [window_starts_loop]
  | ts :: rest, acc, w => by
    rw [window_starts_loop]
    by_cases h : ts - Int.tmod ts 300 ∈ acc
    · rw [if_pos h]
      rw [mem_window_starts_loop rest acc w]
      constructor
      · rintro (hw | ⟨t, ht, rfl⟩)
        · exact Or.inl hw
        · exact Or.inr ⟨t, List.mem_cons_of_mem _ ht, rfl⟩
      · rintro (hw | ⟨t, ht, rfl⟩)
        · exact Or.inl hw
        · rcases List.mem_cons.mp ht with rfl | ht'
          · exact Or.inl h
          · exact Or.inr ⟨t, ht', rfl⟩
    · rw [if_neg h]
      rw [mem_window_starts_loop rest (acc ++ [ts - Int.tmod ts 300]) w]
      constructor
      · rintro (hw | ⟨t, ht, rfl⟩)
        · rcases List.mem_append.mp hw with hw' | hw'
          · exact Or.inl hw'
          · rw [List.mem_singleton] at hw'
            exact Or.inr ⟨ts, List.mem_cons_self _ _, hw'⟩
        · exact Or.inr ⟨t, List.mem_cons_of_mem _ ht, rfl⟩
      · rintro (hw | ⟨t, ht, rfl⟩)
        · exact Or.inl (List.mem_append.mpr (Or.inl hw))
        · rcases List.mem_cons.mp ht with rfl | ht'
          · exact Or.inl (List.mem_append.mpr
              (Or.inr (List.mem_singleton.mpr rfl)))
          · exact Or.inr ⟨t, ht', rfl⟩

/-- The window-start loop keeps its accumulator strictly descending when fed
non-increasing timestamps whose window starts do not exceed the
accumulator's entries. -/
theorem window_starts_loop_sorted : ∀ (tss acc : List Int),
    tss.Pairwise (fun a b => b ≤ a) →
    acc.Pairwise (fun a b => b < a) →
    (∀ a ∈ acc, ∀ ts ∈ tss, ts - Int.tmod ts 300 ≤ a) →
    (window_starts_loop tss acc).Pairwise (fun a b => b < a)
  | [], acc, _, hacc, _ => by simpa [window_starts_loop] using hacc
  | ts :: rest, acc, hts, hacc, hcross => by
    rw [window_starts_loop]
    have htail := (List.pairwise_cons.mp hts).2
    have hhead := (List.pairwise_cons.mp hts).1
    have hmono : ∀ t ∈ rest, t - Int.tmod t 300 ≤ ts - Int.tmod ts 300 :=
      fun t ht => tmod_trunc_mono t ts (hhead t ht)
    by_cases h : ts - Int.tmod ts 300 ∈ acc
    · rw [if_pos h]
      exact window_starts_loop_sorted rest acc htail hacc
        (fun a ha t htr => hcross a ha t (List.mem_cons_of_mem _ htr))
    · rw [if_neg h]
      refine window_starts_loop_sorted rest (acc ++ [ts - Int.tmod ts 300])
        htail ?_ ?_
      · rw [List.pairwise_append]
        refine ⟨hacc, List.pairwise_singleton _ _, ?_⟩
        intro a ha b hb
        rw [List.mem_singleton] at hb
        subst hb
        have hle := hcross a ha ts (List.mem_cons_self _ _)
        rcases lt_or_eq_of_le hle with hlt | heq
        · exact hlt
        · exact absurd (heq ▸ ha) h
      · intro a ha t htr
        rcases List.mem_append.mp ha with ha' | ha'
        · exact hcross a ha' t (List.mem_cons_of_mem _ htr)
        · rw [List.mem_singleton] at ha'
          subst ha'
          exact hmono t htr

/-- Membership after sorted insertion. -/
theorem mem_insertSorted : ∀ (l : List Int) (a x : Int),
    x ∈ insertSorted a l ↔ x = a ∨ x ∈ l
  | [], a, x => by simp [insertSorted]
  | y :: rest, a, x => by
    rw [insertSorted]
    by_cases h : a ≤ y
    · rw [if_pos h]
      simp only [List.mem_cons]
    · rw [if_neg h]
      simp only [List.mem_cons, mem_insertSorted rest a x]
      tauto

/-- Sorted insertion preserves non-decreasing order. -/
theorem insertSorted_pairwise : ∀ (l : List Int) (a : Int),
    l.Pairwise (fun x y => x ≤ y) →
    (insertSorted a l).Pairwise (fun x y => x ≤ y)
  | [], a, _ => List.pairwise_singleton _ _
  | y :: rest, a, h => by
    rw [insertSorted]
    have hy := (List.pairwise_cons.mp h).1
    have hrest := (List.pairwise_cons.mp h).2
    by_cases hle : a ≤ y
    · rw [if_pos hle]
      refine List.pairwise_cons.mpr ⟨?_, h⟩
      intro b hb
      rcases List.mem_cons.mp hb with rfl | hb'
      · exact hle
      · exact le_trans hle (hy b hb')
    · rw [if_neg hle]
      refine List.pairwise_cons.mpr ⟨?_, insertSorted_pairwise rest a hrest⟩
      intro b hb
      rcases (mem_insertSorted rest a b).mp hb with rfl | hb'
      · omega
      · exact hy b hb'

/-- The timestamp sort is non-decreasing. -/
theorem sortTimestamps_pairwise : ∀ l : List Int,
    (sortTimestamps l).Pairwise (fun x y => x ≤ y)
  | [] => List.Pairwise.nil
  | x :: rest => insertSorted_pairwise _ x (sortTimestamps_pairwise rest)

/-- The timestamp sort preserves membership. -/
theorem mem_sortTimestamps : ∀ (l : List Int) (x : Int),
    x ∈ sortTimestamps l ↔ x ∈ l
  | [], x => by simp [sortTimestamps]
  | a :: rest, x => by
    rw [sortTimestamps, mem_insertSorted _ a x, mem_sortTimestamps rest x]
    simp [List.mem_cons]

/-- The deduplicated, reversed, sorted timestamp list is non-increasing. -/
theorem all_timestamps_sorted (repos : List RepositorySelectionItem) :
    (all_timestamps repos).Pairwise (fun a b : Int => b ≤ a) := by
  unfold all_timestamps
  apply List.Pairwise.sublist (dedupConsecutive_sublist _)
  rw [List.pairwise_reverse]
  exact sortTimestamps_pairwise _

/-- C4 counterexample: with a single snapshot one second before the epoch
the window-start computation yields 0, not the 300-second floor −300; the
code truncates toward zero instead of flooring for negative timestamps. -/
theorem select_timestamp_windows_counterexample :
    select_timestamp_windows winRepoNeg = [0] ∧
    (-1 : Int) - (-1 : Int) % 300 = -300 ∧
    ¬((-300 : Int) ∈ select_timestamp_windows winRepoNeg) := by
  refine ⟨by decide, by decide, by decide⟩

/-- C4 amended: the offered window starts are exactly the distinct values
`ts - tmod ts 300` (truncation toward zero, which agrees with the 300-second
floor `ts - ts % 300` for non-negative timestamps) over all snapshot
timestamps, listed newest first without duplicates. -/
theorem select_timestamp_windows_spec (selected_repos : List RepositorySelectionItem) :
    (∀ w : Int, w ∈ select_timestamp_windows selected_repos ↔
      ∃ s ∈ selected_repos.flatMap (fun r => r.snapshots),
        w = s.time - Int.tmod s.time 300) ∧
    (select_timestamp_windows selected_repos).Pairwise (fun a b : Int => b < a) ∧
    (∀ ts : Int, 0 ≤ ts → ts - Int.tmod ts 300 = ts - ts % 300) := by
  refine ⟨?_, ?_, ?_⟩
  · intro w
    unfold select_timestamp_windows
    rw [mem_window_starts_loop]
    simp only [List.not_mem_nil, false_or]
    constructor
    · rintro ⟨t, ht, rfl⟩
      simp only [all_timestamps] at ht
      rw [mem_dedupConsecutive, List.mem_reverse, mem_sortTimestamps] at ht
      obtain ⟨s, hs, rfl⟩ := List.mem_map.mp ht
      exact ⟨s, hs, rfl⟩
    · rintro ⟨s, hs, rfl⟩
      refine ⟨s.time, ?_, rfl⟩
      simp only [all_timestamps]
      rw [mem_dedupConsecutive, List.mem_reverse, mem_sortTimestamps]
      exact List.mem_map.mpr ⟨s, hs, rfl⟩
  · exact window_starts_loop_sorted _ _ (all_timestamps_sorted selected_repos)
      (List.Pairwise.nil) (by simp)
  · intro ts hts
    rw [Int.tmod_eq_emod hts (by norm_num)]

/-- C4 witness: three snapshots in three different windows produce the three
truncated window starts, newest first. -/
theorem select_timestamp_windows_spec_witness :
    ((38100 : Int) ∈ select_timestamp_windows winReposEx ↔
      ∃ s ∈ winReposEx.flatMap (fun r => r.snapshots),
        (38100 : Int) = s.time - Int.tmod s.time 300) ∧
    (38100 : Int) ∈ select_timestamp_windows winReposEx :=
  ⟨(select_timestamp_windows_spec winReposEx).1 38100, by decide⟩
/-- The user-home subdirectory loop only ever returns the
authentication-failure error. -/
theorem scan_user_subdirs_error (w : ScanWorld) (user : List Char)
    (subdirs : List (List Char)) :
    ∀ e, scan_user_subdirs w user subdirs = .error e →
      e = .authenticationFailed := by
  induction subdirs with
  | nil =>
    intro e h
    simp [scan_user_subdirs] at h
  | cons subdir rest ih =>
    intro e h
    rw [scan_user_subdirs] at h
    split at h
    · split at h
      · split at h <;> exact Except.noConfusion h
      · rename_i e' he'
        cases h
        exact ih _ he'
    · cases h
      rfl
    · exact ih _ h

/-- The user-home phase only ever returns the authentication-failure
error. -/
theorem scan_users_error (w : ScanWorld) (user_home_path : List Char)
    (users : List (List Char)) :
    ∀ e, scan_users w user_home_path users = .error e →
      e = .authenticationFailed := by
  induction users with
  | nil =>
    intro e h
    simp [scan_users] at h
  | cons user rest ih =>
    intro e h
    rw [scan_users] at h
    split at h
    · split at h
      · exact Except.noConfusion h
      · rename_i e' he'
        cases h
        exact ih _ he'
    · rename_i e' he'
      cases h
      split at he'
      · exact scan_user_subdirs_error w user _ _ he'
      · exact Except.noConfusion he'

/-- The nested-volume loop only ever returns the authentication-failure
error. -/
theorem scan_nested_volume_error (w : ScanWorld) (volume : List Char)
    (nested : List (List Char)) :
    ∀ e, scan_nested_volume w volume nested = .error e →
      e = .authenticationFailed := by
  induction nested with
  | nil =>
    intro e h
    simp [scan_nested_volume] at h
  | cons nested_repo rest ih =>
    intro e h
    rw [scan_nested_volume] at h
    split at h
    · split at h
      · split at h <;> exact Except.noConfusion h
      · rename_i e' he'
        cases h
        exact ih _ he'
    · cases h
      rfl
    · exact ih _ h

/-- The docker-volume phase only ever returns the authentication-failure
error. -/
theorem scan_volumes_error (w : ScanWorld) (docker_path : List Char)
    (volumes : List (List Char)) :
    ∀ e, scan_volumes w docker_path volumes = .error e →
      e = .authenticationFailed := by
  induction volumes with
  | nil =>
    intro e h
    simp [scan_volumes] at h
  | cons volume rest ih =>
    intro e h
    rw [scan_volumes] at h
    rcases hg : w.getSnapshots (str "docker_volume/" ++ volume)
        (str "/mnt/docker-data/volumes/" ++ volume) with e1 | cs
    · rw [hg] at h; try dsimp only [] at h
      cases e1
      case authenticationFailed =>
        cases h
        rfl
      all_goals exact ih _ h
    · rcases cs with ⟨count, snapshots⟩
      simp only [hg] at h
      by_cases hc : count > 0
      · rw [if_pos hc] at h
        rcases hr : scan_volumes w docker_path rest with e2 | pr
        · rw [hr] at h; try dsimp only [] at h
          cases h
          exact ih _ hr
        · rw [hr] at h; try dsimp only [] at h
          exact Except.noConfusion h
      · rw [if_neg hc] at h
        rcases hl : w.listDirs (docker_path ++ str "/" ++ volume) with e3 | nested
        · rw [hl] at h; try dsimp only [] at h
          rcases hr : scan_volumes w docker_path rest with e2 | pr
          · rw [hr] at h; try dsimp only [] at h
            cases h
            exact ih _ hr
          · rw [hr] at h; try dsimp only [] at h
            exact Except.noConfusion h
        · rw [hl] at h; try dsimp only [] at h
          rcases hn : scan_nested_volume w volume
              (nested.filter (fun d => !is_restic_internal_dir d)) with e4 | pr2
          · rw [hn] at h; try dsimp only [] at h
            cases h
            exact scan_nested_volume_error w volume _ _ hn
          · rw [hn] at h; try dsimp only [] at h
            rcases hr : scan_volumes w docker_path rest with e2 | pr
            · rw [hr] at h; try dsimp only [] at h
              cases h
              exact ih _ hr
            · rw [hr] at h; try dsimp only [] at h
              exact Except.noConfusion h

/-- The system phase only ever returns the authentication-failure error. -/
theorem scan_system_paths_error (w : ScanWorld) (paths : List (List Char)) :
    ∀ e, scan_system_paths w paths = .error e → e = .authenticationFailed := by
  induction paths with
  | nil =>
    intro e h
    simp [scan_system_paths] at h
  | cons path rest ih =>
    intro e h
    rw [scan_system_paths] at h
    split at h
    · split at h
      · split at h <;> exact Except.noConfusion h
      · rename_i e' he'
        cases h
        exact ih _ he'
    · cases h
      rfl
    · exact ih _ h

/-- C2 amended: the listing scan can only abort with `authenticationFailed`
— a snapshot-fetch failure of any other classification (`NetworkError`
included) merely skips the affected repository, and a failed directory
listing of any classification is treated as an empty listing. -/
theorem list_backups_scan_error_is_auth (w : ScanWorld)
    (base_path hostname : List Char) (e : BackupServiceError)
    (h : list_backups_scan w base_path hostname = .error e) :
    e = .authenticationFailed := by
  rw [list_backups_scan] at h
  rcases h1 : w.listDirs (base_path ++ str "/" ++ hostname ++ str "/user_home")
    with e1 | users
  case error =>
    rw [h1] at h
    try dsimp only [] at h
    rcases h2 : w.listDirs (base_path ++ str "/" ++ hostname ++ str "/docker_volume")
      with e2 | volumes
    case error =>
      rw [h2] at h
      try dsimp only [] at h
      rcases h3 : w.listDirs (base_path ++ str "/" ++ hostname ++ str "/system")
        with e3 | paths
      case error =>
        rw [h3] at h
        try dsimp only [] at h
        exact Except.noConfusion h
      case ok =>
        rw [h3] at h
        try dsimp only [] at h
        rcases h4 : scan_system_paths w paths with e4 | p4
        · rw [h4] at h; try dsimp only [] at h
          cases h
          exact scan_system_paths_error w _ _ h4
        · rw [h4] at h; try dsimp only [] at h
          exact Except.noConfusion h
    case ok =>
      rw [h2] at h
      try dsimp only [] at h
      rcases h4 : scan_volumes w
          (base_path ++ str "/" ++ hostname ++ str "/docker_volume") volumes
        with e4 | p4
      · rw [h4] at h; try dsimp only [] at h
        cases h
        exact scan_volumes_error w _ _ _ h4
      · rw [h4] at h; try dsimp only [] at h
        rcases h5 : w.listDirs (base_path ++ str "/" ++ hostname ++ str "/system")
          with e5 | paths
        · rw [h5] at h; try dsimp only [] at h
          exact Except.noConfusion h
        · rw [h5] at h; try dsimp only [] at h
          rcases h6 : scan_system_paths w paths with e6 | p6
          · rw [h6] at h; try dsimp only [] at h
            cases h
            exact scan_system_paths_error w _ _ h6
          · rw [h6] at h; try dsimp only [] at h
            exact Except.noConfusion h
  case ok =>
    rw [h1] at h
    try dsimp only [] at h
    rcases h2 : scan_users w
        (base_path ++ str "/" ++ hostname ++ str "/user_home") users with e2 | p2
    · rw [h2] at h; try dsimp only [] at h
      cases h
      exact scan_users_error w _ _ _ h2
    · rw [h2] at h; try dsimp only [] at h
      rcases h3 : w.listDirs (base_path ++ str "/" ++ hostname ++ str "/docker_volume")
        with e3 | volumes
      case error =>
        rw [h3] at h
        try dsimp only [] at h
        rcases h4 : w.listDirs (base_path ++ str "/" ++ hostname ++ str "/system")
          with e4 | paths
        · rw [h4] at h; try dsimp only [] at h
          exact Except.noConfusion h
        · rw [h4] at h; try dsimp only [] at h
          rcases h5 : scan_system_paths w paths with e5 | p5
          · rw [h5] at h; try dsimp only [] at h
            cases h
            exact scan_system_paths_error w _ _ h5
          · rw [h5] at h; try dsimp only [] at h
            exact Except.noConfusion h
      case ok =>
        rw [h3] at h
        try dsimp only [] at h
        rcases h4 : scan_volumes w
            (base_path ++ str "/" ++ hostname ++ str "/docker_volume") volumes
          with e4 | p4
        · rw [h4] at h; try dsimp only [] at h
          cases h
          exact scan_volumes_error w _ _ _ h4
        · rw [h4] at h; try dsimp only [] at h
          rcases h5 : w.listDirs (base_path ++ str "/" ++ hostname ++ str "/system")
            with e5 | paths
          · rw [h5] at h; try dsimp only [] at h
            exact Except.noConfusion h
          · rw [h5] at h; try dsimp only [] at h
            rcases h6 : scan_system_paths w paths with e6 | p6
            · rw [h6] at h; try dsimp only [] at h
              cases h
              exact scan_system_paths_error w _ _ h6
            · rw [h6] at h; try dsimp only [] at h
              exact Except.noConfusion h

/-- C2 witness: in the collaborator behaviour whose single snapshot fetch
fails with authentication, the scan aborts with exactly that error. -/
theorem list_backups_scan_error_is_auth_witness :
    list_backups_scan scanWorldAuth (str "backup") (str "host1") =
      .error .authenticationFailed ∧
    (.authenticationFailed : BackupServiceError) = .authenticationFailed :=
  ⟨rfl, list_backups_scan_error_is_auth scanWorldAuth (str "backup")
    (str "host1") .authenticationFailed rfl⟩

/-- C2 counterexample: a snapshot fetch failing with `NetworkError` during
the scan does not abort the operation — the scan still returns success
(here an empty result) — whereas the same failure classified as
`AuthenticationFailed` does abort it. -/
theorem list_backups_scan_network_counterexample :
    scanWorldNet.getSnapshots (str "user_home/tim/docs") (str "/home/tim/docs") =
      .error .networkError ∧
    list_backups_scan scanWorldNet (str "backup") (str "host1") = .ok ([], []) ∧
    list_backups_scan scanWorldAuth (str "backup") (str "host1") =
      .error .authenticationFailed :=
  ⟨rfl, rfl, rfl⟩
